import Mathlib

/-!
Verification of the retry engine of `fetch-with-retries`
(`src/fetch-with-retries.ts`, latest variant: `fetchWithRetries` with
`mergeWithDefaultOptions`, `timeout` support and `signal` handling).

The engine is embedded shallowly:

* a `Response` keeps exactly the observations the engine makes of a fetch
  response: the HTTP status and the raw string values of the two rate-limit
  headers it reads (`Retry-After`, `X-RateLimit-Reset`);
* a thrown fetch error keeps the fields the classifier reads:
  `error.cause.code` (optional) and `error.name`;
* the environment supplies, for each attempt number (1-based), the outcome of
  that attempt together with the value the engine would read from
  `signal.aborted` at the two points where it can actually change: right
  after the `fetch` await and right after the `wait` await (the remaining
  reads happen synchronously and therefore reuse those values);
* the `do … while` loop becomes a fuel-indexed recursion; the fuel
  `maxRetries + rateLimit.maxRetries + 1` is proven sufficient, since every
  non-final iteration increments one of the two bounded retry counters.

The run result records the outcome (`ok response`, a re-thrown transport
error, or the raise performed by `signal.throwIfAborted()`), the list of
`onRetry` events that would be delivered to a supplied callback, and the
number of attempts issued.
-/

/-- JS `parseInt(s, 10)` restricted to its defined results: skip leading
whitespace, optional sign, then a maximal decimal-digit prefix; `none` models
the `NaN` returned when no digit is found. -/
def parseIntJS (s : String) : Option Int :=
  let cs := s.data.dropWhile (fun c => c = ' ' ∨ c = '\t' ∨ c = '\n' ∨ c = '\r')
  match cs with
  | '-' :: rest => (digitsValue rest).map (fun n => -(n : Int))
  | '+' :: rest => (digitsValue rest).map (fun n => (n : Int))
  | _ => (digitsValue cs).map (fun n => (n : Int))
where
  /-- Value of the maximal leading decimal-digit prefix, `none` if empty. -/
  digitsValue (cs : List Char) : Option Nat :=
    let ds := cs.takeWhile Char.isDigit
    if ds.isEmpty then none
    else some (ds.foldl (fun a c => a * 10 + (c.toNat - 48)) 0)

/-- The observations the engine makes of a fetch `Response`: its status and
the raw values of the two headers it consults (`none` = header absent). -/
structure Response where
  status : Nat
  retryAfterHeader : Option String
  xRateLimitResetHeader : Option String
deriving DecidableEq, Repr

/-- Fetch API `Response.ok`: status in the range 200–299. -/
def Response.ok (r : Response) : Bool :=
  200 ≤ r.status && r.status ≤ 299

/-- The fields of a thrown fetch error read by the retry classifier:
`error.cause.code` (absent on errors without a cause) and `error.name`. -/
structure FetchError where
  causeCode : Option String
  name : String
deriving DecidableEq, Repr

/-- `RETRY_STATUS_CODES` from `retry-codes.ts`. -/
def RETRY_STATUS_CODES : List Nat := [408, 425, 429, 500, 502, 503, 504]

/-- `RETRY_ERROR_CODES` from `retry-codes.ts`. -/
def RETRY_ERROR_CODES : List String :=
  ["ENOTFOUND", "ECONNREFUSED", "ECONNRESET", "ETIMEDOUT", "EPIPE",
   "EAI_AGAIN", "EHOSTDOWN", "EHOSTUNREACH", "ENETDOWN", "ENETRESET",
   "ENETUNREACH", "ECONNABORTED"]

/-- `getRetryAfterFromHeader`: `parseInt(response.headers.get('Retry-After') || '', 10)`,
with `none` standing for the `NaN` / not-an-integer case (the source always
guards the value with `Number.isInteger`). -/
def getRetryAfterFromHeader (r : Response) : Option Int :=
  parseIntJS (r.retryAfterHeader.getD "")

/-- `getXRateLimitResetFromHeader`: `parseInt(response.headers.get('X-RateLimit-Reset') || '', 10)`. -/
def getXRateLimitResetFromHeader (r : Response) : Option Int :=
  parseIntJS (r.xRateLimitResetHeader.getD "")

/-- `isRateLimitRetry`: status 429 or 503 with an integer `Retry-After`,
or status 429 with an integer `X-RateLimit-Reset`. -/
def isRateLimitRetry (r : Response) : Bool :=
  ([429, 503].contains r.status && (getRetryAfterFromHeader r).isSome) ||
    (r.status == 429 && (getXRateLimitResetFromHeader r).isSome)

/-- `isResponseThatHaveToBeRetried`: not ok and status in `RETRY_STATUS_CODES`. -/
def isResponseThatHaveToBeRetried (r : Response) : Bool :=
  !r.ok && RETRY_STATUS_CODES.contains r.status

/-- `isErrorThatHaveToBeRetried`: `error.cause.code` in `RETRY_ERROR_CODES`,
or `error.name === 'TimeoutError'`. -/
def isErrorThatHaveToBeRetried (e : FetchError) : Bool :=
  (match e.causeCode with
   | some c => RETRY_ERROR_CODES.contains c
   | none => false) ||
    e.name == "TimeoutError"

/-- The merged retry configuration used by the loop (the fields destructured
from `mergeWithDefaultOptions`), with every field present. Delays are exact
integers (all documented defaults and the engine's arithmetic on them are
integral). -/
structure RateLimitOptions where
  maxRetries : Nat
  maxDelay : Int
deriving DecidableEq, Repr

/-- Top-level merged retry configuration. -/
structure RetryOptions where
  maxRetries : Nat
  initialDelay : Int
  factor : Int
  rateLimit : RateLimitOptions
deriving DecidableEq, Repr

/-- `hasReachedMaxRetries`. -/
def hasReachedMaxRetries (cfg : RetryOptions) (retries : Nat) : Bool :=
  cfg.maxRetries ≤ retries

/-- `hasReachedRateLimitMaxRetries`. -/
def hasReachedRateLimitMaxRetries (cfg : RetryOptions) (retries : Nat) : Bool :=
  cfg.rateLimit.maxRetries ≤ retries

/-- `getDelay`: `initialDelay * Math.pow(factor, retries)`. -/
def getDelay (cfg : RetryOptions) (retries : Nat) : Int :=
  cfg.initialDelay * cfg.factor ^ retries

/-- `getRateLimitDelay` for a given value of `Date.now()`. `none` models the
`NaN` produced when neither header parses; the loop only calls this under
`isRateLimitRetry`, which guarantees one of the two branches applies. -/
def getRateLimitDelay (cfg : RetryOptions) (now : Int) (r : Response) : Option Int :=
  match getRetryAfterFromHeader r with
  | some retryAfter => some (min (retryAfter * 1000) cfg.rateLimit.maxDelay)
  | none =>
    match getXRateLimitResetFromHeader r with
    | some reset => some (min (reset * 1000 - now) cfg.rateLimit.maxDelay)
    | none => none

/-- The `OnRetry` record passed to the `onRetry` callback. -/
structure OnRetryEvent where
  response : Option Response
  error : Option FetchError
  attempt : Nat
  delay : Int
  rateLimitRetry : Bool
deriving DecidableEq, Repr

/-- Outcome of one `fetch` call: a response, or a thrown error. -/
inductive AttemptOutcome where
  | success (r : Response)
  | failure (e : FetchError)
deriving DecidableEq, Repr

/-- What the environment supplies for one loop iteration: the attempt's
outcome and the value of `signal.aborted` at the two await boundaries of the
iteration (all other reads of `signal.aborted` in the iteration happen
synchronously after one of these two points and therefore see these values). -/
structure IterationInput where
  outcome : AttemptOutcome
  abortedAfterFetch : Bool
  abortedAfterWait : Bool
deriving DecidableEq, Repr

/-- How one call of `fetchWithRetries` settles: returning the response,
re-throwing a transport error, or raising the signal's reason via
`signal.throwIfAborted()`. -/
inductive FetchResult where
  | ok (r : Response)
  | errorThrown (e : FetchError)
  | abortedThrow
deriving DecidableEq, Repr

/-- The observable trace of one call: its result, the `onRetry` events in
order of emission, and the number of fetch attempts issued. -/
structure RunResult where
  result : FetchResult
  events : List OnRetryEvent
  attempts : Nat
deriving DecidableEq, Repr

/-- The `do … while` loop of `fetchWithRetries`, as a fuel-indexed recursion.
`attempt`, `errorRetries`, `rateLimitRetries` are the loop's mutable counters
at iteration entry; `env n` is what attempt number `n` observes; `now` is
`Date.now()` for the rate-limit delay computation. `none` = out of fuel. -/
def loop (cfg : RetryOptions) (env : Nat → IterationInput) (now : Int) :
    Nat → Nat → Nat → Nat → Option RunResult
  | 0, _, _, _ => none
  | fuel + 1, attempt0, errorRetries, rateLimitRetries =>
    let attempt := attempt0 + 1
    let input := env attempt
    match input.outcome with
    | .failure e =>
      if isErrorThatHaveToBeRetried e && !hasReachedMaxRetries cfg errorRetries then
        -- errorToRetry = e (truthy), so retry is true; rateLimitRetry is
        -- false because response is null.
        if input.abortedAfterFetch then
          -- retry body skipped; the while condition and throwIfAborted run
          -- synchronously and see the same aborted signal.
          some ⟨.abortedThrow, [], attempt⟩
        else
          let errorRetries' := errorRetries + 1
          let delay := getDelay cfg errorRetries'
          let ev : OnRetryEvent := ⟨none, some e, attempt, delay, false⟩
          if input.abortedAfterWait then
            some ⟨.abortedThrow, [ev], attempt⟩
          else
            match loop cfg env now fuel attempt errorRetries' rateLimitRetries with
            | some out => some ⟨out.result, ev :: out.events, out.attempts⟩
            | none => none
      else
        -- non-retryable error or exhausted budget: `throw e`
        some ⟨.errorThrown e, [], attempt⟩
    | .success r =>
      let rateLimitRetry :=
        isRateLimitRetry r && !hasReachedRateLimitMaxRetries cfg rateLimitRetries
      let retry :=
        (isResponseThatHaveToBeRetried r && !hasReachedMaxRetries cfg errorRetries) ||
          rateLimitRetry
      if retry then
        if input.abortedAfterFetch then
          some ⟨.abortedThrow, [], attempt⟩
        else if rateLimitRetry then
          let rateLimitRetries' := rateLimitRetries + 1
          -- the `getD 0` is unreachable junk: `isRateLimitRetry r` holds here,
          -- so one of the two headers parses and `getRateLimitDelay` is `some`.
          let delay := (getRateLimitDelay cfg now r).getD 0
          let ev : OnRetryEvent := ⟨some r, none, attempt, delay, true⟩
          if input.abortedAfterWait then
            some ⟨.abortedThrow, [ev], attempt⟩
          else
            match loop cfg env now fuel attempt errorRetries rateLimitRetries' with
            | some out => some ⟨out.result, ev :: out.events, out.attempts⟩
            | none => none
        else
          let errorRetries' := errorRetries + 1
          let delay := getDelay cfg errorRetries'
          let ev : OnRetryEvent := ⟨some r, none, attempt, delay, false⟩
          if input.abortedAfterWait then
            some ⟨.abortedThrow, [ev], attempt⟩
          else
            match loop cfg env now fuel attempt errorRetries' rateLimitRetries with
            | some out => some ⟨out.result, ev :: out.events, out.attempts⟩
            | none => none
      else
        -- retry false: the loop exits; `signal?.throwIfAborted()` runs
        -- synchronously after the while check and sees `abortedAfterFetch`.
        if input.abortedAfterFetch then
          some ⟨.abortedThrow, [], attempt⟩
        else
          some ⟨.ok r, [], attempt⟩

/-- Fuel that always suffices: every non-final iteration increments one of
the two bounded counters. -/
def sufficientFuel (cfg : RetryOptions) : Nat :=
  cfg.maxRetries + cfg.rateLimit.maxRetries + 1

/-- `fetchWithRetries` on an already-merged configuration: run the loop from
`attempt = errorRetries = rateLimitRetries = 0`. -/
def fetchWithRetries (cfg : RetryOptions) (env : Nat → IterationInput)
    (now : Int) : Option RunResult :=
  loop cfg env now (sufficientFuel cfg) 0 0 0

/-- Number of error-path retries recorded in an event list (events portray
exactly the increments of the loop's `errorRetries` counter: transport-error
retries and generic retryable-status retries, both with
`rateLimitRetry = false`). -/
def countErrorRetries (evs : List OnRetryEvent) : Nat :=
  evs.countP (fun ev => !ev.rateLimitRetry)

/-- Number of rate-limit retries recorded in an event list (the increments of
the loop's `rateLimitRetries` counter). -/
def countRateLimitRetries (evs : List OnRetryEvent) : Nat :=
  evs.countP (fun ev => ev.rateLimitRetry)

/-- Modelled from the spec: rate-limit eligibility as §4.2 words it — status
in {429, 503} and at least one configured rate-limit header (built-in
`Retry-After`, then built-in `X-RateLimit-Reset`; the default configuration
has no user-supplied custom headers) yields a parseable integer. Stated for
comparison with the source's `isRateLimitRetry`. -/
def rateLimitEligibleSpec (r : Response) : Bool :=
  [429, 503].contains r.status &&
    ((getRetryAfterFromHeader r).isSome || (getXRateLimitResetFromHeader r).isSome)

/-- The user-supplied `retryOptions.rateLimit` object: each field is `some`
exactly when the corresponding key is present. -/
structure PartialRateLimitOptions where
  maxRetries : Option Nat
  maxDelay : Option Int
deriving DecidableEq, Repr

/-- The user-supplied `Partial<RetryOptions>` argument of
`mergeWithDefaultOptions`: each field is `some` exactly when the key is
present (`rateLimit = some rl` means the `rateLimit` key is present with
object `rl`). -/
structure PartialRetryOptions where
  maxRetries : Option Nat
  initialDelay : Option Int
  factor : Option Int
  rateLimit : Option PartialRateLimitOptions
deriving DecidableEq, Repr

/-- The object value actually produced by `mergeWithDefaultOptions` at
runtime: the top-level fields always come out as numbers, but the `rateLimit`
field is whatever object ends up under that key — possibly one with missing
subfields. -/
structure MergedRetryOptions where
  maxRetries : Nat
  initialDelay : Int
  factor : Int
  rateLimit : PartialRateLimitOptions
deriving DecidableEq, Repr

/-- `mergeWithDefaultOptions`, with JS object-spread semantics. The object
literal is `{ maxRetries: 3, initialDelay: 1000, factor: 2, rateLimit:
{ maxRetries: 10, maxDelay: 60_000, ...options.rateLimit }, ...options }`:
the trailing `...options` spread is evaluated last, so whenever the user
supplied a `rateLimit` key, that object replaces the defaults-merged inner
object wholesale. -/
def mergeWithDefaultOptions (options : PartialRetryOptions) : MergedRetryOptions :=
  let innerRateLimit : PartialRateLimitOptions :=
    { maxRetries := some ((options.rateLimit.bind PartialRateLimitOptions.maxRetries).getD 10),
      maxDelay := some ((options.rateLimit.bind PartialRateLimitOptions.maxDelay).getD 60000) }
  { maxRetries := (options.maxRetries).getD 3,
    initialDelay := (options.initialDelay).getD 1000,
    factor := (options.factor).getD 2,
    rateLimit :=
      match options.rateLimit with
      | some rl => rl
      | none => innerRateLimit }

/-- A standard merged configuration (all documented defaults), used by the
concrete witness runs. -/
def sampleConfig : RetryOptions := ⟨3, 1000, 2, ⟨10, 60000⟩⟩

/-- A retryable transport error (connection reset). -/
def sampleError : FetchError := ⟨some "ECONNRESET", "Error"⟩

/-- Environment where every attempt throws `sampleError` and the signal never
fires. -/
def envAllErrors : Nat → IterationInput :=
  fun _ => ⟨.failure sampleError, false, false⟩

/-- Environment where every attempt gets a plain 500 response (retryable
status, no rate-limit headers) and the signal never fires. -/
def envAll500 : Nat → IterationInput :=
  fun _ => ⟨.success ⟨500, none, none⟩, false, false⟩

/-- Environment where every attempt gets a 429 response with `Retry-After: 0`
and the signal never fires. -/
def envAll429 : Nat → IterationInput :=
  fun _ => ⟨.success ⟨429, some "0", none⟩, false, false⟩

/-- Environment where every attempt throws `sampleError` and the signal fires
during the wait that follows the retry decision of attempt `k`. -/
def envAbortAtWait (k : Nat) : Nat → IterationInput :=
  fun n => ⟨.failure sampleError, decide (k < n), decide (k ≤ n)⟩

/-- Key structural invariant of the loop, proved once and specialised by the
per-claim theorems below: from counters `eR`/`rlR`, (1) at most
`maxRetries - eR` further error-path retries and (2) at most
`rateLimit.maxRetries - rlR` further rate-limit retries are performed;
(3) the `i`-th emitted event carries attempt number `a + i + 1`; (4) every
error-path event's delay is `initialDelay * factor ^ (post-increment
errorRetries)`, the post-increment count being `eR` plus the error-path
events emitted up to and including this one. -/
theorem loop_main (cfg : RetryOptions) (env : Nat → IterationInput) (now : Int) :
    ∀ fuel a eR rlR out, loop cfg env now fuel a eR rlR = some out →
      countErrorRetries out.events ≤ cfg.maxRetries - eR ∧
      countRateLimitRetries out.events ≤ cfg.rateLimit.maxRetries - rlR ∧
      (∀ i (h : i < out.events.length), (out.events.get ⟨i, h⟩).attempt = a + i + 1) ∧
      (∀ i (h : i < out.events.length), (out.events.get ⟨i, h⟩).rateLimitRetry = false →
        (out.events.get ⟨i, h⟩).delay =
          cfg.initialDelay * cfg.factor ^ (eR + countErrorRetries (out.events.take (i + 1)))) := by
  intro fuel
  induction fuel with
  | zero => intro a eR rlR out h; simp [loop] at h
  | succ fuel ih =>
    intro a eR rlR out h
    rcases henv : env (a + 1) with ⟨outcome, af, aw⟩
    simp only [loop, henv] at h
    cases outcome with
    | failure e =>
      by_cases hc : (isErrorThatHaveToBeRetried e && !hasReachedMaxRetries cfg eR) = true
      · have heR : eR < cfg.maxRetries := by
          rcases Bool.and_eq_true .. |>.mp hc with ⟨-, h2⟩
          simp [hasReachedMaxRetries] at h2
          exact h2
        simp only [hc, if_true] at h
        cases af with
        | true =>
          simp only [if_true] at h
          obtain rfl : (⟨.abortedThrow, [], a + 1⟩ : RunResult) = out := by
            simpa using h
          refine ⟨by simp [countErrorRetries], by simp [countRateLimitRetries], ?_, ?_⟩ <;>
            intro i hi <;> simp at hi
        | false =>
          simp only [Bool.false_eq_true, if_false] at h
          cases aw with
          | true =>
            simp only [if_true] at h
            obtain rfl :
                (⟨.abortedThrow, [⟨none, some e, a + 1, getDelay cfg (eR + 1), false⟩],
                  a + 1⟩ : RunResult) = out := by simpa using h
            refine ⟨?_, ?_, ?_, ?_⟩
            · simp [countErrorRetries]; omega
            · simp [countRateLimitRetries]
            · intro i hi
              simp only [List.length_singleton] at hi
              obtain rfl : i = 0 := by omega
              rfl
            · intro i hi hrl
              simp only [List.length_singleton] at hi
              obtain rfl : i = 0 := by omega
              simp [countErrorRetries, getDelay]
          | false =>
            simp only [Bool.false_eq_true, if_false] at h
            cases hl : loop cfg env now fuel (a + 1) (eR + 1) rlR with
            | none => rw [hl] at h; simp at h
            | some out' =>
              rw [hl] at h
              simp only [Option.some.injEq] at h
              subst h
              obtain ⟨ih1, ih2, ih3, ih4⟩ := ih (a + 1) (eR + 1) rlR out' hl
              refine ⟨?_, ?_, ?_, ?_⟩
              · simp only [countErrorRetries, List.countP_cons] at ih1 ⊢
                simp
                omega
              · simpa [countRateLimitRetries, List.countP_cons] using ih2
              · intro i hi
                cases i with
                | zero => rfl
                | succ i =>
                  have := ih3 i (by simpa using hi)
                  simp only [List.get_cons_succ]
                  omega
              · intro i hi hrl
                cases i with
                | zero =>
                  simp [countErrorRetries, getDelay, List.take_succ_cons]
                | succ i =>
                  have hi' : i < out'.events.length := by simpa using hi
                  have hrl' : (out'.events.get ⟨i, hi'⟩).rateLimitRetry = false := by
                    simpa using hrl
                  have heq := ih4 i hi' hrl'
                  simp only [List.get_cons_succ, List.take_succ_cons]
                  rw [heq]
                  congr 2
                  simp [countErrorRetries, List.countP_cons]
                  omega
      · simp only [hc, if_false] at h
        obtain rfl : (⟨.errorThrown e, [], a + 1⟩ : RunResult) = out := by simpa using h
        refine ⟨by simp [countErrorRetries], by simp [countRateLimitRetries], ?_, ?_⟩ <;>
          intro i hi <;> simp at hi
    | success r =>
      by_cases hrlc : (isRateLimitRetry r && !hasReachedRateLimitMaxRetries cfg rlR) = true
      · have hrlR : rlR < cfg.rateLimit.maxRetries := by
          rcases Bool.and_eq_true .. |>.mp hrlc with ⟨-, h2⟩
          simp [hasReachedRateLimitMaxRetries] at h2
          exact h2
        simp only [hrlc, Bool.or_true, if_true] at h
        cases af with
        | true =>
          simp only [if_true] at h
          obtain rfl : (⟨.abortedThrow, [], a + 1⟩ : RunResult) = out := by simpa using h
          refine ⟨by simp [countErrorRetries], by simp [countRateLimitRetries], ?_, ?_⟩ <;>
            intro i hi <;> simp at hi
        | false =>
          simp only [Bool.false_eq_true, if_false, hrlc, if_true] at h
          cases aw with
          | true =>
            simp only [if_true] at h
            obtain rfl :
                (⟨.abortedThrow,
                  [⟨some r, none, a + 1, (getRateLimitDelay cfg now r).getD 0, true⟩],
                  a + 1⟩ : RunResult) = out := by simpa using h
            refine ⟨?_, ?_, ?_, ?_⟩
            · simp [countErrorRetries]
            · simp [countRateLimitRetries]; omega
            · intro i hi
              simp only [List.length_singleton] at hi
              obtain rfl : i = 0 := by omega
              rfl
            · intro i hi hrl
              simp only [List.length_singleton] at hi
              obtain rfl : i = 0 := by omega
              simp at hrl
          | false =>
            simp only [Bool.false_eq_true, if_false] at h
            cases hl : loop cfg env now fuel (a + 1) eR (rlR + 1) with
            | none => rw [hl] at h; simp at h
            | some out' =>
              rw [hl] at h
              simp only [Option.some.injEq] at h
              subst h
              obtain ⟨ih1, ih2, ih3, ih4⟩ := ih (a + 1) eR (rlR + 1) out' hl
              refine ⟨?_, ?_, ?_, ?_⟩
              · simpa [countErrorRetries, List.countP_cons] using ih1
              · simp only [countRateLimitRetries, List.countP_cons] at ih2 ⊢
                simp
                omega
              · intro i hi
                cases i with
                | zero => rfl
                | succ i =>
                  have := ih3 i (by simpa using hi)
                  simp only [List.get_cons_succ]
                  omega
              · intro i hi hrl
                cases i with
                | zero => simp at hrl
                | succ i =>
                  have hi' : i < out'.events.length := by simpa using hi
                  have hrl' : (out'.events.get ⟨i, hi'⟩).rateLimitRetry = false := by
                    simpa using hrl
                  have heq := ih4 i hi' hrl'
                  simp only [List.get_cons_succ, List.take_succ_cons]
                  rw [heq]
                  congr 2
      · by_cases hresp : (isResponseThatHaveToBeRetried r && !hasReachedMaxRetries cfg eR) = true
        · have heR : eR < cfg.maxRetries := by
            rcases Bool.and_eq_true .. |>.mp hresp with ⟨-, h2⟩
            simp [hasReachedMaxRetries] at h2
            exact h2
          simp only [hresp, Bool.true_or, if_true, hrlc, Bool.false_eq_true, if_false] at h
          cases af with
          | true =>
            simp only [if_true] at h
            obtain rfl : (⟨.abortedThrow, [], a + 1⟩ : RunResult) = out := by simpa using h
            refine ⟨by simp [countErrorRetries], by simp [countRateLimitRetries], ?_, ?_⟩ <;>
              intro i hi <;> simp at hi
          | false =>
            simp only [Bool.false_eq_true, if_false] at h
            cases aw with
            | true =>
              simp only [if_true] at h
              obtain rfl :
                  (⟨.abortedThrow, [⟨some r, none, a + 1, getDelay cfg (eR + 1), false⟩],
                    a + 1⟩ : RunResult) = out := by simpa using h
              refine ⟨?_, ?_, ?_, ?_⟩
              · simp [countErrorRetries]; omega
              · simp [countRateLimitRetries]
              · intro i hi
                simp only [List.length_singleton] at hi
                obtain rfl : i = 0 := by omega
                rfl
              · intro i hi hrl
                simp only [List.length_singleton] at hi
                obtain rfl : i = 0 := by omega
                simp [countErrorRetries, getDelay]
            | false =>
              simp only [Bool.false_eq_true, if_false] at h
              cases hl : loop cfg env now fuel (a + 1) (eR + 1) rlR with
              | none => rw [hl] at h; simp at h
              | some out' =>
                rw [hl] at h
                simp only [Option.some.injEq] at h
                subst h
                obtain ⟨ih1, ih2, ih3, ih4⟩ := ih (a + 1) (eR + 1) rlR out' hl
                refine ⟨?_, ?_, ?_, ?_⟩
                · simp only [countErrorRetries, List.countP_cons] at ih1 ⊢
                  simp
                  omega
                · simpa [countRateLimitRetries, List.countP_cons] using ih2
                · intro i hi
                  cases i with
                  | zero => rfl
                  | succ i =>
                    have := ih3 i (by simpa using hi)
                    simp only [List.get_cons_succ]
                    omega
                · intro i hi hrl
                  cases i with
                  | zero =>
                    simp [countErrorRetries, getDelay, List.take_succ_cons]
                  | succ i =>
                    have hi' : i < out'.events.length := by simpa using hi
                    have hrl' : (out'.events.get ⟨i, hi'⟩).rateLimitRetry = false := by
                      simpa using hrl
                    have heq := ih4 i hi' hrl'
                    simp only [List.get_cons_succ, List.take_succ_cons]
                    rw [heq]
                    congr 2
                    simp [countErrorRetries, List.countP_cons]
                    omega
        · simp only [hresp, hrlc, Bool.false_eq_true, Bool.or_self, if_false] at h
          cases af with
          | true =>
            simp only [if_true] at h
            obtain rfl : (⟨.abortedThrow, [], a + 1⟩ : RunResult) = out := by simpa using h
            refine ⟨by simp [countErrorRetries], by simp [countRateLimitRetries], ?_, ?_⟩ <;>
              intro i hi <;> simp at hi
          | false =>
            simp only [Bool.false_eq_true, if_false] at h
            obtain rfl : (⟨.ok r, [], a + 1⟩ : RunResult) = out := by simpa using h
            refine ⟨by simp [countErrorRetries], by simp [countRateLimitRetries], ?_, ?_⟩ <;>
              intro i hi <;> simp at hi

/-- The fuel `maxRetries + rateLimit.maxRetries + 1` never runs out: every
recursive step of `loop` strictly decreases the remaining retry budget. -/
theorem loop_isSome (cfg : RetryOptions) (env : Nat → IterationInput) (now : Int) :
    ∀ fuel a eR rlR,
      (cfg.maxRetries - eR) + (cfg.rateLimit.maxRetries - rlR) < fuel →
      (loop cfg env now fuel a eR rlR).isSome := by
  intro fuel
  induction fuel with
  | zero => intro a eR rlR h; omega
  | succ fuel ih =>
    intro a eR rlR h
    rcases henv : env (a + 1) with ⟨outcome, af, aw⟩
    simp only [loop, henv]
    cases outcome with
    | failure e =>
      by_cases hc : (isErrorThatHaveToBeRetried e && !hasReachedMaxRetries cfg eR) = true
      · have heR : eR < cfg.maxRetries := by
          rcases Bool.and_eq_true .. |>.mp hc with ⟨-, h2⟩
          simp [hasReachedMaxRetries] at h2
          exact h2
        simp only [hc, if_true]
        cases af with
        | true => simp
        | false =>
          simp only [Bool.false_eq_true, if_false]
          cases aw with
          | true => simp
          | false =>
            simp only [Bool.false_eq_true, if_false]
            have := ih (a + 1) (eR + 1) rlR (by omega)
            cases hl : loop cfg env now fuel (a + 1) (eR + 1) rlR with
            | none => rw [hl] at this; simp at this
            | some out => simp [hl]
      · simp [hc]
    | success r =>
      by_cases hrlc : (isRateLimitRetry r && !hasReachedRateLimitMaxRetries cfg rlR) = true
      · have hrlR : rlR < cfg.rateLimit.maxRetries := by
          rcases Bool.and_eq_true .. |>.mp hrlc with ⟨-, h2⟩
          simp [hasReachedRateLimitMaxRetries] at h2
          exact h2
        simp only [hrlc, Bool.or_true, if_true]
        cases af with
        | true => simp
        | false =>
          simp only [Bool.false_eq_true, if_false, hrlc, if_true]
          cases aw with
          | true => simp
          | false =>
            simp only [Bool.false_eq_true, if_false]
            have := ih (a + 1) eR (rlR + 1) (by omega)
            cases hl : loop cfg env now fuel (a + 1) eR (rlR + 1) with
            | none => rw [hl] at this; simp at this
            | some out => simp [hl]
      · by_cases hresp : (isResponseThatHaveToBeRetried r && !hasReachedMaxRetries cfg eR) = true
        · have heR : eR < cfg.maxRetries := by
            rcases Bool.and_eq_true .. |>.mp hresp with ⟨-, h2⟩
            simp [hasReachedMaxRetries] at h2
            exact h2
          simp only [hresp, Bool.true_or, if_true, hrlc, Bool.false_eq_true, if_false]
          cases af with
          | true => simp
          | false =>
            simp only [Bool.false_eq_true, if_false]
            cases aw with
            | true => simp
            | false =>
              simp only [Bool.false_eq_true, if_false]
              have := ih (a + 1) (eR + 1) rlR (by omega)
              cases hl : loop cfg env now fuel (a + 1) (eR + 1) rlR with
              | none => rw [hl] at this; simp at this
              | some out => simp [hl]
        · simp only [hresp, hrlc, Bool.false_eq_true, Bool.or_self, if_false]
          cases af with
          | true => simp
          | false => simp

/-- The engine always settles: with the fuel `sufficientFuel cfg`, the
embedded `fetchWithRetries` produces a run result for every environment. -/
theorem fetchWithRetries_isSome (cfg : RetryOptions) (env : Nat → IterationInput)
    (now : Int) : (fetchWithRetries cfg env now).isSome :=
  loop_isSome cfg env now _ 0 0 0 (by simp [sufficientFuel])

/-- An event list splits into its error-path and rate-limit counts. -/
theorem length_eq_counts (evs : List OnRetryEvent) :
    evs.length = countErrorRetries evs + countRateLimitRetries evs := by
  induction evs with
  | nil => simp [countErrorRetries, countRateLimitRetries]
  | cons ev evs ih =>
    simp only [countErrorRetries, countRateLimitRetries, List.countP_cons,
      List.length_cons] at ih ⊢
    cases hrl : ev.rateLimitRetry <;> simp [hrl] <;> omega

/-- Counting over a prefix never exceeds counting over the whole list. -/
theorem countP_take_le (p : OnRetryEvent → Bool) (evs : List OnRetryEvent) (n : Nat) :
    (evs.take n).countP p ≤ evs.countP p := by
  conv_rhs => rw [← List.take_append_drop n evs]
  rw [List.countP_append]
  omega

/-- C1: in every execution of `fetchWithRetries`, at every point of the loop
the counters satisfy `errorRetries ≤ maxRetries` and
`rateLimitRetries ≤ rateLimit.maxRetries` (each performed retry is recorded as
one event; the counter values after any number of retry decisions are the
counts over the corresponding event-list prefix), so no iteration performs a
retry that would push either counter past its bound. -/
theorem fetchWithRetries_counters_within_bounds
    (cfg : RetryOptions) (env : Nat → IterationInput) (now : Int) (out : RunResult)
    (h : fetchWithRetries cfg env now = some out) (n : Nat) :
    countErrorRetries (out.events.take n) ≤ cfg.maxRetries ∧
    countRateLimitRetries (out.events.take n) ≤ cfg.rateLimit.maxRetries := by
  obtain ⟨h1, h2, -, -⟩ := loop_main cfg env now _ 0 0 0 out h
  constructor
  · exact (countP_take_le _ _ n).trans (by simpa [countErrorRetries] using h1)
  · exact (countP_take_le _ _ n).trans (by simpa [countRateLimitRetries] using h2)

/-- C1 witness: concrete run (all attempts 500, defaults config), prefix of
length 2. -/
theorem fetchWithRetries_counters_within_bounds_witness :
    countErrorRetries ((RunResult.events
        ⟨.ok ⟨500, none, none⟩,
          [⟨some ⟨500, none, none⟩, none, 1, 2000, false⟩,
           ⟨some ⟨500, none, none⟩, none, 2, 4000, false⟩,
           ⟨some ⟨500, none, none⟩, none, 3, 8000, false⟩], 4⟩).take 2) ≤
      sampleConfig.maxRetries ∧
    countRateLimitRetries ((RunResult.events
        ⟨.ok ⟨500, none, none⟩,
          [⟨some ⟨500, none, none⟩, none, 1, 2000, false⟩,
           ⟨some ⟨500, none, none⟩, none, 2, 4000, false⟩,
           ⟨some ⟨500, none, none⟩, none, 3, 8000, false⟩], 4⟩).take 2) ≤
      sampleConfig.rateLimit.maxRetries :=
  fetchWithRetries_counters_within_bounds sampleConfig envAll500 0 _ (by decide) 2

/-- C7: for every configuration and every sequence of attempt outcomes, the
number of `onRetry` invocations in one call never exceeds
`maxRetries + rateLimit.maxRetries`. -/
theorem fetchWithRetries_onRetry_count_le
    (cfg : RetryOptions) (env : Nat → IterationInput) (now : Int) (out : RunResult)
    (h : fetchWithRetries cfg env now = some out) :
    out.events.length ≤ cfg.maxRetries + cfg.rateLimit.maxRetries := by
  obtain ⟨h1, h2, -, -⟩ := loop_main cfg env now _ 0 0 0 out h
  rw [length_eq_counts]
  omega

/-- C7 witness: the all-500 run under the default configuration emits 3
events, within the bound 3 + 10. -/
theorem fetchWithRetries_onRetry_count_le_witness :
    (RunResult.events
      ⟨.ok ⟨500, none, none⟩,
        [⟨some ⟨500, none, none⟩, none, 1, 2000, false⟩,
         ⟨some ⟨500, none, none⟩, none, 2, 4000, false⟩,
         ⟨some ⟨500, none, none⟩, none, 3, 8000, false⟩], 4⟩).length ≤
      sampleConfig.maxRetries + sampleConfig.rateLimit.maxRetries :=
  fetchWithRetries_onRetry_count_le sampleConfig envAll500 0 _ (by decide)

/-- C10: the `i`-th (0-based) `onRetry` event of a call carries
`attempt = i + 1`, which equals `errorRetries + rateLimitRetries` after the
corresponding counter increment (the counts over the event prefix up to and
including this event). -/
theorem fetchWithRetries_attempt_equals_event_index
    (cfg : RetryOptions) (env : Nat → IterationInput) (now : Int) (out : RunResult)
    (h : fetchWithRetries cfg env now = some out) (i : Nat) (hi : i < out.events.length) :
    (out.events.get ⟨i, hi⟩).attempt = i + 1 ∧
    (out.events.get ⟨i, hi⟩).attempt =
      countErrorRetries (out.events.take (i + 1)) +
        countRateLimitRetries (out.events.take (i + 1)) := by
  obtain ⟨-, -, h3, -⟩ := loop_main cfg env now _ 0 0 0 out h
  have hatt : (out.events.get ⟨i, hi⟩).attempt = i + 1 := by simpa using h3 i hi
  refine ⟨hatt, ?_⟩
  have hlen : (out.events.take (i + 1)).length = i + 1 := by
    simp [List.length_take]
    omega
  rw [hatt, ← length_eq_counts, hlen]

/-- C10 witness: second event of the concrete all-500 run carries
`attempt = 2`. -/
theorem fetchWithRetries_attempt_equals_event_index_witness :
    ((RunResult.events
      ⟨.ok ⟨500, none, none⟩,
        [⟨some ⟨500, none, none⟩, none, 1, 2000, false⟩,
         ⟨some ⟨500, none, none⟩, none, 2, 4000, false⟩,
         ⟨some ⟨500, none, none⟩, none, 3, 8000, false⟩], 4⟩).get ⟨1, by decide⟩).attempt = 1 + 1 ∧
    ((RunResult.events
      ⟨.ok ⟨500, none, none⟩,
        [⟨some ⟨500, none, none⟩, none, 1, 2000, false⟩,
         ⟨some ⟨500, none, none⟩, none, 2, 4000, false⟩,
         ⟨some ⟨500, none, none⟩, none, 3, 8000, false⟩], 4⟩).get ⟨1, by decide⟩).attempt =
      countErrorRetries ((RunResult.events
      ⟨.ok ⟨500, none, none⟩,
        [⟨some ⟨500, none, none⟩, none, 1, 2000, false⟩,
         ⟨some ⟨500, none, none⟩, none, 2, 4000, false⟩,
         ⟨some ⟨500, none, none⟩, none, 3, 8000, false⟩], 4⟩).take 2) +
      countRateLimitRetries ((RunResult.events
      ⟨.ok ⟨500, none, none⟩,
        [⟨some ⟨500, none, none⟩, none, 1, 2000, false⟩,
         ⟨some ⟨500, none, none⟩, none, 2, 4000, false⟩,
         ⟨some ⟨500, none, none⟩, none, 3, 8000, false⟩], 4⟩).take 2) :=
  fetchWithRetries_attempt_equals_event_index sampleConfig envAll500 0 _ (by decide) 1 (by decide)

/-- C4: every error-path retry (transport error or generic retryable status)
waits `initialDelay * factor ^ errorRetries` with `errorRetries` the
post-increment count (the number of error-path events up to and including
this one); that count is at least 1, so the first error-path retry uses
`factor ^ 1`, never `factor ^ 0`. -/
theorem fetchWithRetries_error_path_delay
    (cfg : RetryOptions) (env : Nat → IterationInput) (now : Int) (out : RunResult)
    (h : fetchWithRetries cfg env now = some out) (i : Nat) (hi : i < out.events.length)
    (hrl : (out.events.get ⟨i, hi⟩).rateLimitRetry = false) :
    (out.events.get ⟨i, hi⟩).delay =
      cfg.initialDelay * cfg.factor ^ countErrorRetries (out.events.take (i + 1)) ∧
    1 ≤ countErrorRetries (out.events.take (i + 1)) := by
  obtain ⟨-, -, -, h4⟩ := loop_main cfg env now _ 0 0 0 out h
  refine ⟨by simpa using h4 i hi hrl, ?_⟩
  have hrl' : out.events[i].rateLimitRetry = false := by
    simpa [← List.get_eq_getElem] using hrl
  have hlen : i < (out.events.take (i + 1)).length := by
    simp [List.length_take]
    omega
  have hmem : (out.events.take (i + 1)).get ⟨i, hlen⟩ ∈ out.events.take (i + 1) :=
    List.get_mem _ _ _
  have hgt : (out.events.take (i + 1)).get ⟨i, hlen⟩ = out.events[i] := by
    simp [List.get_eq_getElem, List.getElem_take]
  exact List.countP_pos_iff.mpr ⟨_, hmem, by rw [hgt]; simp [hrl']⟩

/-- C4 witness: first event of the concrete all-500 run has delay
`2000 = 1000 * 2 ^ 1`. -/
theorem fetchWithRetries_error_path_delay_witness :
    ((RunResult.events
      ⟨.ok ⟨500, none, none⟩,
        [⟨some ⟨500, none, none⟩, none, 1, 2000, false⟩,
         ⟨some ⟨500, none, none⟩, none, 2, 4000, false⟩,
         ⟨some ⟨500, none, none⟩, none, 3, 8000, false⟩], 4⟩).get ⟨0, by decide⟩).delay =
      sampleConfig.initialDelay * sampleConfig.factor ^ countErrorRetries ((RunResult.events
      ⟨.ok ⟨500, none, none⟩,
        [⟨some ⟨500, none, none⟩, none, 1, 2000, false⟩,
         ⟨some ⟨500, none, none⟩, none, 2, 4000, false⟩,
         ⟨some ⟨500, none, none⟩, none, 3, 8000, false⟩], 4⟩).take 1) ∧
    1 ≤ countErrorRetries ((RunResult.events
      ⟨.ok ⟨500, none, none⟩,
        [⟨some ⟨500, none, none⟩, none, 1, 2000, false⟩,
         ⟨some ⟨500, none, none⟩, none, 2, 4000, false⟩,
         ⟨some ⟨500, none, none⟩, none, 3, 8000, false⟩], 4⟩).take 1) :=
  fetchWithRetries_error_path_delay sampleConfig envAll500 0 _ (by decide) 0 (by decide) (by decide)

/-- When every attempt raises a retryable transport error and the signal never
fires, the loop performs one retry per remaining unit of error budget, then
re-throws the error observed on the final attempt. -/
theorem loop_all_errors (cfg : RetryOptions) (e : Nat → FetchError)
    (he : ∀ n, isErrorThatHaveToBeRetried (e n) = true) (now : Int) :
    ∀ k fuel a eR rlR, eR + k = cfg.maxRetries → k < fuel →
      ∃ evs, loop cfg (fun n => ⟨.failure (e n), false, false⟩) now fuel a eR rlR =
          some ⟨.errorThrown (e (a + k + 1)), evs, a + k + 1⟩ ∧
        evs.length = k := by
  intro k
  induction k with
  | zero =>
    intro fuel a eR rlR hk hf
    match fuel, hf with
    | fuel + 1, _ =>
      refine ⟨[], ?_, rfl⟩
      have hreach : hasReachedMaxRetries cfg eR = true := by
        simp [hasReachedMaxRetries]
        omega
      simp [loop, he (a + 1), hreach]
  | succ k ih =>
    intro fuel a eR rlR hk hf
    match fuel, hf with
    | fuel + 1, hf =>
      have hreach : hasReachedMaxRetries cfg eR = false := by
        simp [hasReachedMaxRetries]
        omega
      obtain ⟨evs, hL, hlen⟩ := ih fuel (a + 1) (eR + 1) rlR (by omega) (by omega)
      refine ⟨⟨none, some (e (a + 1)), a + 1, getDelay cfg (eR + 1), false⟩ :: evs, ?_,
        by simp [hlen]⟩
      have hidx : a + 1 + k + 1 = a + (k + 1) + 1 := by omega
      simp [loop, he (a + 1), hreach, hL, hidx]

/-- When every attempt yields a retryable-status response that is not
rate-limit eligible and the signal never fires, the loop performs one retry
per remaining unit of error budget, then returns the final response. -/
theorem loop_all_retry_status (cfg : RetryOptions) (r : Nat → Response)
    (hr : ∀ n, isResponseThatHaveToBeRetried (r n) = true)
    (hnorl : ∀ n, isRateLimitRetry (r n) = false) (now : Int) :
    ∀ k fuel a eR rlR, eR + k = cfg.maxRetries → k < fuel →
      ∃ evs, loop cfg (fun n => ⟨.success (r n), false, false⟩) now fuel a eR rlR =
          some ⟨.ok (r (a + k + 1)), evs, a + k + 1⟩ ∧
        evs.length = k := by
  intro k
  induction k with
  | zero =>
    intro fuel a eR rlR hk hf
    match fuel, hf with
    | fuel + 1, _ =>
      refine ⟨[], ?_, rfl⟩
      have hreach : hasReachedMaxRetries cfg eR = true := by
        simp [hasReachedMaxRetries]
        omega
      simp [loop, hr (a + 1), hnorl (a + 1), hreach]
  | succ k ih =>
    intro fuel a eR rlR hk hf
    match fuel, hf with
    | fuel + 1, hf =>
      have hreach : hasReachedMaxRetries cfg eR = false := by
        simp [hasReachedMaxRetries]
        omega
      obtain ⟨evs, hL, hlen⟩ := ih fuel (a + 1) (eR + 1) rlR (by omega) (by omega)
      refine ⟨⟨some (r (a + 1)), none, a + 1, getDelay cfg (eR + 1), false⟩ :: evs, ?_,
        by simp [hlen]⟩
      have hidx : a + 1 + k + 1 = a + (k + 1) + 1 := by omega
      simp [loop, hr (a + 1), hnorl (a + 1), hreach, hL, hidx]

/-- When every attempt raises a retryable transport error and the signal
fires during the wait that follows the retry decision of attempt `k`, the
loop stops after attempt `k` with the events emitted so far and raises via
`throwIfAborted`. -/
theorem loop_abort_during_wait (cfg : RetryOptions) (e : Nat → FetchError)
    (he : ∀ n, isErrorThatHaveToBeRetried (e n) = true) (now : Int) (k : Nat) :
    ∀ j fuel a eR rlR, a + j + 1 = k → eR + j + 1 ≤ cfg.maxRetries → j < fuel →
      ∃ evs, loop cfg (fun n => ⟨.failure (e n), decide (k < n), decide (k ≤ n)⟩)
          now fuel a eR rlR = some ⟨.abortedThrow, evs, k⟩ ∧
        evs.length = j + 1 := by
  intro j
  induction j with
  | zero =>
    intro fuel a eR rlR hak heR hf
    match fuel, hf with
    | fuel + 1, _ =>
      have hreach : hasReachedMaxRetries cfg eR = false := by
        simp [hasReachedMaxRetries]
        omega
      have haf : decide (k < a + 1) = false := by simp; omega
      have haw : decide (k ≤ a + 1) = true := by simp; omega
      have hak' : a + 1 = k := by omega
      refine ⟨[⟨none, some (e (a + 1)), a + 1, getDelay cfg (eR + 1), false⟩], ?_, rfl⟩
      simp [loop, he, hreach, haf, haw, hak']
  | succ j ih =>
    intro fuel a eR rlR hak heR hf
    match fuel, hf with
    | fuel + 1, hf =>
      have hreach : hasReachedMaxRetries cfg eR = false := by
        simp [hasReachedMaxRetries]
        omega
      have haf : decide (k < a + 1) = false := by simp; omega
      have haw : decide (k ≤ a + 1) = false := by simp; omega
      obtain ⟨evs, hL, hlen⟩ := ih fuel (a + 1) (eR + 1) rlR (by omega) (by omega) (by omega)
      refine ⟨⟨none, some (e (a + 1)), a + 1, getDelay cfg (eR + 1), false⟩ :: evs, ?_,
        by simp [hlen]⟩
      simp [loop, he (a + 1), hreach, haf, haw, hL]

/-- C2: when every attempt raises a retryable transport error (and the
caller does not cancel), the call raises the error observed on the final
attempt — attempt `maxRetries + 1` — rather than returning a response, and
exactly `maxRetries` `onRetry` invocations precede the raise. -/
theorem fetchWithRetries_error_budget_exhausted_throws_last
    (cfg : RetryOptions) (e : Nat → FetchError)
    (he : ∀ n, isErrorThatHaveToBeRetried (e n) = true) (now : Int) :
    ∃ evs, fetchWithRetries cfg (fun n => ⟨.failure (e n), false, false⟩) now =
        some ⟨.errorThrown (e (cfg.maxRetries + 1)), evs, cfg.maxRetries + 1⟩ ∧
      evs.length = cfg.maxRetries := by
  obtain ⟨evs, hL, hlen⟩ := loop_all_errors cfg e he now cfg.maxRetries
    (sufficientFuel cfg) 0 0 0 (by omega) (by simp [sufficientFuel]; omega)
  exact ⟨evs, by simpa using hL, hlen⟩

/-- C2 witness: default configuration, every attempt failing with
`ECONNRESET`: the call throws after attempt 4 with 3 events. -/
theorem fetchWithRetries_error_budget_exhausted_throws_last_witness :
    ∃ evs, fetchWithRetries sampleConfig envAllErrors 0 =
        some ⟨.errorThrown sampleError, evs, 4⟩ ∧ evs.length = 3 :=
  fetchWithRetries_error_budget_exhausted_throws_last sampleConfig
    (fun _ => sampleError)
    (fun _ => by show isErrorThatHaveToBeRetried sampleError = true; decide) 0

/-- C3: when every attempt yields a response with a retryable status and no
rate-limit eligibility (and the caller does not cancel), the exhausted call
returns the response received on the final attempt — attempt
`maxRetries + 1` — normally instead of raising, after exactly `maxRetries`
retries. -/
theorem fetchWithRetries_status_budget_exhausted_returns_last
    (cfg : RetryOptions) (r : Nat → Response)
    (hr : ∀ n, isResponseThatHaveToBeRetried (r n) = true)
    (hnorl : ∀ n, isRateLimitRetry (r n) = false) (now : Int) :
    ∃ evs, fetchWithRetries cfg (fun n => ⟨.success (r n), false, false⟩) now =
        some ⟨.ok (r (cfg.maxRetries + 1)), evs, cfg.maxRetries + 1⟩ ∧
      evs.length = cfg.maxRetries := by
  obtain ⟨evs, hL, hlen⟩ := loop_all_retry_status cfg r hr hnorl now cfg.maxRetries
    (sufficientFuel cfg) 0 0 0 (by omega) (by simp [sufficientFuel]; omega)
  exact ⟨evs, by simpa using hL, hlen⟩

/-- C3 witness: default configuration, every attempt answering 500: the call
returns the fourth 500 response with 3 events. -/
theorem fetchWithRetries_status_budget_exhausted_returns_last_witness :
    ∃ evs, fetchWithRetries sampleConfig envAll500 0 =
        some ⟨.ok ⟨500, none, none⟩, evs, 4⟩ ∧ evs.length = 3 :=
  fetchWithRetries_status_budget_exhausted_returns_last sampleConfig
    (fun _ => ⟨500, none, none⟩)
    (fun _ => by show isResponseThatHaveToBeRetried ⟨500, none, none⟩ = true; decide)
    (fun _ => by show isRateLimitRetry ⟨500, none, none⟩ = false; decide) 0

/-- C9: if the cancellation signal fires while the inter-retry wait following
the retry decision of attempt `k` is pending, the call raises via
`signal.throwIfAborted()` (the signal's reason), the event count is exactly
the `k` retries decided before the cancellation, and no attempt beyond `k` is
issued (`attempts = k`). -/
theorem fetchWithRetries_abort_during_wait
    (cfg : RetryOptions) (e : Nat → FetchError)
    (he : ∀ n, isErrorThatHaveToBeRetried (e n) = true) (now : Int) (k : Nat)
    (hk1 : 1 ≤ k) (hk2 : k ≤ cfg.maxRetries) :
    ∃ evs, fetchWithRetries cfg
        (fun n => ⟨.failure (e n), decide (k < n), decide (k ≤ n)⟩) now =
        some ⟨.abortedThrow, evs, k⟩ ∧ evs.length = k := by
  obtain ⟨evs, hL, hlen⟩ := loop_abort_during_wait cfg e he now k (k - 1)
    (sufficientFuel cfg) 0 0 0 (by omega) (by omega) (by simp [sufficientFuel]; omega)
  exact ⟨evs, hL, by omega⟩

/-- C9 witness: default configuration, abort firing during the wait after
attempt 2's retry decision: aborted raise, 2 events, 2 attempts. -/
theorem fetchWithRetries_abort_during_wait_witness :
    ∃ evs, fetchWithRetries sampleConfig (envAbortAtWait 2) 0 =
        some ⟨.abortedThrow, evs, 2⟩ ∧ evs.length = 2 :=
  fetchWithRetries_abort_during_wait sampleConfig (fun _ => sampleError)
    (fun _ => by show isErrorThatHaveToBeRetried sampleError = true; decide) 0 2
    (by decide) (by decide)

/-- C5: the rate-limit delay is the resolved header value in milliseconds —
an integer `Retry-After` value times 1000, otherwise `X-RateLimit-Reset`
times 1000 minus the current time — clamped to at most `rateLimit.maxDelay`;
negative results are possible when the reset time is already past (the
caller then sees an effectively immediate retry). -/
theorem getRateLimitDelay_formula :
    (∀ (cfg : RetryOptions) (now : Int) (r : Response) (k : Int),
      getRetryAfterFromHeader r = some k →
      getRateLimitDelay cfg now r = some (min (k * 1000) cfg.rateLimit.maxDelay)) ∧
    (∀ (cfg : RetryOptions) (now : Int) (r : Response) (m : Int),
      getRetryAfterFromHeader r = none → getXRateLimitResetFromHeader r = some m →
      getRateLimitDelay cfg now r = some (min (m * 1000 - now) cfg.rateLimit.maxDelay)) ∧
    (∃ (cfg : RetryOptions) (now : Int) (r : Response) (d : Int),
      getRateLimitDelay cfg now r = some d ∧ d < 0) := by
  refine ⟨?_, ?_,
    ⟨⟨0, 0, 0, ⟨0, 60000⟩⟩, 5000, ⟨429, none, some "3"⟩, -2000, by decide, by decide⟩⟩
  · intro cfg now r k hk
    simp [getRateLimitDelay, hk]
  · intro cfg now r m hk hm
    simp [getRateLimitDelay, hk, hm]

/-- C5 witness: `Retry-After: 5` gives `min 5000 maxDelay`. -/
theorem getRateLimitDelay_formula_witness :
    getRateLimitDelay sampleConfig 0 ⟨429, some "5", none⟩ =
      some (min (5 * 1000) sampleConfig.rateLimit.maxDelay) :=
  getRateLimitDelay_formula.1 sampleConfig 0 ⟨429, some "5", none⟩ 5 (by decide)

/-- C6 counterexample: a 503 response whose only parseable rate-limit header
is `X-RateLimit-Reset` is eligible per the spec's wording (status in
{429, 503} and some configured header parses) but not per the code:
`isRateLimitRetry` consults `X-RateLimit-Reset` only for status 429. -/
theorem isRateLimitRetry_spec_counterexample :
    rateLimitEligibleSpec ⟨503, none, some "5"⟩ = true ∧
    isRateLimitRetry ⟨503, none, some "5"⟩ = false := by decide

/-- C6 amended: rate-limit eligibility holds iff the status is 429 or 503 and
`Retry-After` yields a parseable integer, or the status is 429 and
`X-RateLimit-Reset` yields a parseable integer (`X-RateLimit-Reset` is never
consulted for 503, and no user-supplied custom headers exist); whenever
`Retry-After` parses it has priority and determines the delay source. -/
theorem isRateLimitRetry_characterisation :
    (∀ r : Response,
      isRateLimitRetry r = true ↔
        (((r.status = 429 ∨ r.status = 503) ∧ (getRetryAfterFromHeader r).isSome = true) ∨
          (r.status = 429 ∧ (getXRateLimitResetFromHeader r).isSome = true))) ∧
    (∀ (cfg : RetryOptions) (now : Int) (r : Response) (k : Int),
      getRetryAfterFromHeader r = some k →
      getRateLimitDelay cfg now r = some (min (k * 1000) cfg.rateLimit.maxDelay)) := by
  constructor
  · intro r
    simp [isRateLimitRetry]
  · intro cfg now r k hk
    simp [getRateLimitDelay, hk]

/-- C6 amended witness: 503 with `Retry-After: 7` is eligible, and the delay
source is the `Retry-After` branch. -/
theorem isRateLimitRetry_characterisation_witness :
    isRateLimitRetry ⟨503, some "7", none⟩ = true ∧
    getRateLimitDelay sampleConfig 0 ⟨503, some "7", none⟩ =
      some (min (7 * 1000) sampleConfig.rateLimit.maxDelay) :=
  ⟨(isRateLimitRetry_characterisation.1 ⟨503, some "7", none⟩).mpr
      (Or.inl ⟨Or.inr rfl, by decide⟩),
    isRateLimitRetry_characterisation.2 sampleConfig 0 ⟨503, some "7", none⟩ 7 (by decide)⟩

/-- C8: evaluating `mergeWithDefaultOptions` at the failing input
`retryOptions = { rateLimit: { maxRetries: 5 } }`: the unspecified subfield
`rateLimit.maxDelay` does NOT receive its documented default 60000 — it comes
out absent (JS `undefined`) because the trailing `...options` spread
overwrites the defaults-merged `rateLimit` object wholesale, contradicting
the function's own JSDoc ("a default value will be applied to each subfield
if not provided"). Top-level defaults, and the rate-limit defaults when no
`rateLimit` key is supplied, do work as documented. -/
theorem mergeWithDefaultOptions_partial_rateLimit_loses_defaults :
    (mergeWithDefaultOptions ⟨none, none, none, some ⟨some 5, none⟩⟩).rateLimit.maxDelay
        = none ∧
    (mergeWithDefaultOptions ⟨none, none, none, some ⟨some 5, none⟩⟩).rateLimit.maxRetries
        = some 5 ∧
    (mergeWithDefaultOptions ⟨none, none, none, some ⟨some 5, none⟩⟩).maxRetries = 3 ∧
    (mergeWithDefaultOptions ⟨none, none, none, some ⟨some 5, none⟩⟩).initialDelay = 1000 ∧
    (mergeWithDefaultOptions ⟨none, none, none, some ⟨some 5, none⟩⟩).factor = 2 ∧
    mergeWithDefaultOptions ⟨none, none, none, none⟩
        = ⟨3, 1000, 2, ⟨some 10, some 60000⟩⟩ := by decide
